import Mathlib

/-!
# Verification of the compile-and-run orchestration core

Shallow embedding of `src/src/compiler/compiler.ts` (class `Compiler`) of the
NodeJSCompilerMediator repository, together with models of its collaborators
(`CommandBuilder`, `ProcessWrapper`, `CompilerLoader`) whose sources are not
part of the repository snapshot and are therefore modelled from the spec.

The RxJS observables of the source deliver at most one terminal signal to a
subscriber; we embed an observable by the terminal signal its subscriber
receives (`Signal`): `next v` followed by `complete`, a single `error e`, or
`dropped` when an error signal is raised but the subscription at hand installed
no error callback, so the downstream observer never receives any signal.

Subprocess behaviour is abstracted by an oracle indexed by the number of
processes spawned so far; the list of `ProcInvocation`s records every
`new ProcessWrapper(...)` construction, in order, together with the stdin
lines written to it.
-/

namespace CompilerMediator

/-! ## JS-style primitives: maps, trimming, truthiness, stringification -/

/-- The variables container of the descriptor: a JS `Map<string, string>`,
embedded as an association list with unique keys (`mapSet` replaces in place,
`mapGet` finds the first binding). -/
abbrev VarMap := List (String × String)

def mapGet (m : VarMap) (k : String) : Option String :=
  match m with
  | [] => none
  | (k1, v1) :: rest => if k1 = k then some v1 else mapGet rest k

def mapSet (m : VarMap) (k v : String) : VarMap :=
  match m with
  | [] => [(k, v)]
  | (k1, v1) :: rest => if k1 = k then (k, v) :: rest else (k1, v1) :: mapSet rest k v

/-- Whitespace recognised by JS `String.prototype.trim` (common subset). -/
def jsWhitespace (c : Char) : Bool :=
  c == ' ' || c == '\t' || c == '\n' || c == '\r' || c == '\x0b' || c == '\x0c'

/-- Trim from both ends of a character list. -/
def trimChars (l : List Char) : List Char :=
  List.rdropWhile jsWhitespace (List.dropWhile jsWhitespace l)

/-- Embedding of JS `String.prototype.trim`. -/
def jsTrim (s : String) : String :=
  ⟨trimChars s.data⟩

/-- A value acceptable by `putVariable`: `string | number | boolean`.
Numbers are modelled as integers (the values relevant here are integral;
JS `Number.prototype.toString` on an integral value prints it in decimal). -/
inductive JsValue where
  | str (s : String)
  | num (n : Int)
  | bool (b : Bool)
deriving Repr, DecidableEq

/-- JS `value.toString()` on a `JsValue`. -/
def jsToString : JsValue → String
  | JsValue.str s => s
  | JsValue.num n => toString n
  | JsValue.bool b => if b then "true" else "false"

/-- JS truthiness of an optional string (`undefined` and `""` are falsy). -/
def truthyStr : Option String → Bool
  | some s => decide (s ≠ "")
  | none => false

/-- JS truthiness of an optional number (`undefined` and `0` are falsy). -/
def truthyNat : Option Nat → Bool
  | some n => decide (n ≠ 0)
  | none => false

/-! ## Data model -/

/-- `ICompilerConfigs` — the execution descriptor held in `Compiler.configs`.
Field shapes follow their uses in `compiler.ts` (optional command templates,
optional working directory `filePath`, optional numeric timeout, the
variables map and the pending stdin inputs). -/
structure ICompilerConfigs where
  compilerName : String
  compileCommand : Option String := none
  runCommand : Option String := none
  filePath : Option String := none
  executionTimeout : Option Nat := none
  «variables» : VarMap := []
  inputs : List String := []
deriving Repr, DecidableEq

/-- The errors the orchestration can signal. `compilationError` embeds the
source's `CompilationError(msg)` class; the remaining constructors stand for
the failures of the external collaborators (toolchain lookup, subprocess). -/
inductive JsError where
  | compilationError (msg : String)
  | toolchainLoadError (msg : String)
  | timeout
  | spawnError (msg : String)
deriving Repr, DecidableEq

/-- `ICompilerOutput` of `compiler.ts`: all three fields optional. `took` is
a JS number of milliseconds; we embed it as a rational to keep the
sub-millisecond precision of `hrtime[1] / 1000000`. -/
structure ICompilerOutput where
  returnCode : Option Int := none
  data : Option String := none
  took : Option ℚ := none
deriving Repr, DecidableEq

/-- The terminal signal an RxJS subscriber receives from an observable:
one `next` (followed by `complete`), one `error`, or nothing at all
(`dropped`: an error was raised somewhere but the subscription in between had
no error callback, so it never reaches this observer). -/
inductive Signal (α : Type) where
  | next (a : α)
  | error (e : JsError)
  | dropped
deriving Repr, DecidableEq

/-- One `new ProcessWrapper(command, options)` construction: the spawn
primitive of the spec. `stdin` records the lines passed to `writeInput`. -/
structure ProcInvocation where
  command : String
  currentDirectory : Option String
  executionTimeout : Option Nat
  stdin : List String
deriving Repr, DecidableEq

/-- Modelled from the spec: the observable behaviour of one spawned
`ProcessWrapper` (not under `src/`). Per spec §6 the wrapper exposes output
and error chunk streams and a terminal exit-code event; per §4.2/§7 a
subprocess invocation can instead fail (timeout, spawn error), which is
delivered as an error signal on its event streams. `finished` carries the
interleaved stdout/stderr chunks, the exit code, and the elapsed wall-clock
time as an `hrtime`-style `(seconds, nanoseconds)` pair measured by the
injected clock. -/
inductive ProcResult where
  | finished (chunks : List String) (returnCode : Int) (elapsedSec : Nat) (elapsedNanos : Nat)
  | failed (e : JsError)
deriving Repr, DecidableEq

/-- Environment of one orchestration: the behaviour of the n-th spawned
subprocess. -/
abbrev ProcOracle := Nat → ProcResult

/-! ## CommandBuilder — the CommandTemplate Engine

Modelled from the spec: `command-builder.ts` is not under `src/`. Spec §4.1:
scan the template for placeholders of the form `{name}` (alphanumerics and
underscores), substitute the variable's value when present, leave the
placeholder untouched when absent, and never rescan substituted text. -/

def isNameChar (c : Char) : Bool :=
  c.isAlphanum || c == '_'

/-- One left-to-right substitution pass over the template's characters.
`fuel` (initially the length of the list) only serves totality: every step
consumes at least one character. -/
def substChars (vars : VarMap) : Nat → List Char → List Char
  | 0, l => l
  | _ + 1, [] => []
  | fuel + 1, c :: rest =>
    if c == '{' then
      let nameChars := rest.takeWhile isNameChar
      match rest.drop nameChars.length with
      | '}' :: rest2 =>
        match mapGet vars ⟨nameChars⟩ with
        | some v => v.data ++ substChars vars fuel rest2
        | none => '{' :: (nameChars ++ '}' :: substChars vars fuel rest2)
      | _ => c :: substChars vars fuel rest
    else c :: substChars vars fuel rest

/-- Modelled from the spec: the `CommandBuilder` collaborator — a template
plus the variables put so far. -/
structure CommandBuilder where
  command : String
  «variables» : VarMap := []
deriving Repr, DecidableEq

/-- `putVariables` merges a whole map into the builder's variable store. -/
def CommandBuilder.putVariables (b : CommandBuilder) (vars : VarMap) : CommandBuilder :=
  { b with «variables» := vars.foldl (fun m kv => mapSet m kv.1 kv.2) b.«variables» }

/-- `buildCommand`: substitute the stored variables into the template. -/
def CommandBuilder.buildCommand (b : CommandBuilder) : String :=
  ⟨substChars b.«variables» b.command.data.length b.command.data⟩

/-- Modelled from the spec: the record the toolchain registry
(`CompilerLoader`, not under `src/`) resolves for a language identifier:
working directory, default timeout and the two command templates. -/
structure ToolchainInfo where
  filePath : Option String := none
  executionTimeout : Option Nat := none
  compileCommand : Option String := none
  runCommand : Option String := none
deriving Repr, DecidableEq

/-! ## The Compiler class -/

namespace Compiler

/-- `public readonly SUCCESS_CODE: number = 0`. -/
def SUCCESS_CODE : Int := 0

/-- `putVariable(name, value)`: store `name.trim() → value.toString()` when
the trimmed name is non-empty, otherwise do nothing. -/
def putVariable (cfg : ICompilerConfigs) (name : String) (value : JsValue) :
    ICompilerConfigs :=
  if 0 < (jsTrim name).length then
    { cfg with «variables» := mapSet cfg.«variables» (jsTrim name) (jsToString value) }
  else
    cfg

/-- `executionTimeout(value)`: the user-facing timeout setter. -/
def executionTimeout (cfg : ICompilerConfigs) (value : Nat) : ICompilerConfigs :=
  { cfg with executionTimeout := some value }

/-- `onInputRequested(...inputs)`: replace the pending inputs wholesale. -/
def onInputRequested (cfg : ICompilerConfigs) (inputs : List String) : ICompilerConfigs :=
  { cfg with inputs := inputs }

/-- `configureCommand(command)`: build the concrete command through a
`CommandBuilder`, putting the descriptor's variables (the source puts them
twice: once under the `if (this.configs.variables)` guard and once after). -/
def configureCommand (cfg : ICompilerConfigs) (command : String) : String :=
  (((CommandBuilder.mk command []).putVariables cfg.«variables»).putVariables
      cfg.«variables»).buildCommand

/-- `private run(...inputs)`: build the command from `this.configs.runCommand`
when it is truthy, otherwise signal `CompilationError('runCommand not
found.')` — and in either case construct the `ProcessWrapper` (the source has
no early return after `observer.error`), passing the descriptor's working
directory and timeout and writing the given stdin inputs. When the
subprocess finishes, emit data, return code, and
`took = hrtime_diff[1] / 1000000`. The subscriptions to the wrapper's streams
install no error callbacks, so a failed subprocess leaves the observer
without any signal (`dropped`). -/
def run (cfg : ICompilerConfigs) (oracle : ProcOracle) (st : List ProcInvocation)
    (inputs : List String) : Signal ICompilerOutput × List ProcInvocation :=
  let command : String :=
    if truthyStr cfg.runCommand then configureCommand cfg (cfg.runCommand.getD "") else ""
  let inv : ProcInvocation :=
    { command := command
      currentDirectory := cfg.filePath
      executionTimeout := cfg.executionTimeout
      stdin := inputs }
  let st2 := st ++ [inv]
  if truthyStr cfg.runCommand then
    match oracle st.length with
    | ProcResult.finished chunks returnCode _sec nanos =>
      (Signal.next
        { data := some (String.join chunks)
          returnCode := some returnCode
          took := some ((nanos : ℚ) / 1000000) }, st2)
    | ProcResult.failed _ => (Signal.dropped, st2)
  else
    (Signal.error (JsError.compilationError "runCommand not found."), st2)

/-- `private compile()`: when `compileCommand` is truthy, delegate to
`this.run(this.configs.compileCommand)` — which passes the compile command as
a single stdin input — forwarding both `next` and `error`; otherwise emit an
immediate `{ returnCode: SUCCESS_CODE }`. -/
def compile (cfg : ICompilerConfigs) (oracle : ProcOracle) (st : List ProcInvocation) :
    Signal ICompilerOutput × List ProcInvocation :=
  if truthyStr cfg.compileCommand then
    run cfg oracle st [cfg.compileCommand.getD ""]
  else
    (Signal.next { returnCode := some SUCCESS_CODE }, st)

/-- `private compileAndRun(observer)`: subscribe to `compile()` — with a next
callback only, so a compile-phase error signal never reaches the observer
(`dropped`) — then dispatch on the compile output: run phase on success code
with truthy `runCommand` (forwarding the run observable's signal verbatim),
`CompilationError('runCommand not found.')` when `runCommand` is falsy,
compile-output passthrough on a non-zero return code, and the guard error
`CompilationError('Failed to compile.')` otherwise. -/
def compileAndRun (cfg : ICompilerConfigs) (oracle : ProcOracle)
    (st : List ProcInvocation) : Signal ICompilerOutput × List ProcInvocation :=
  match compile cfg oracle st with
  | (Signal.next compileOutput, st1) =>
    if compileOutput.returnCode = some SUCCESS_CODE ∧ truthyStr cfg.runCommand = true then
      run cfg oracle st1 cfg.inputs
    else if truthyStr cfg.runCommand = false then
      (Signal.error (JsError.compilationError "runCommand not found."), st1)
    else if compileOutput.returnCode ≠ some 0 then
      (Signal.next compileOutput, st1)
    else
      (Signal.error (JsError.compilationError "Failed to compile."), st1)
  | (Signal.error _e, st1) => (Signal.dropped, st1)
  | (Signal.dropped, st1) => (Signal.dropped, st1)

/-- `private configureDefaultOptions()`: default the working directory to
`'./'` when falsy. -/
def configureDefaultOptions (cfg : ICompilerConfigs) : ICompilerConfigs :=
  { cfg with filePath := if truthyStr cfg.filePath then cfg.filePath else some "./" }

/-- `private optionsParser(compiler)`: merge the resolved toolchain record
into the descriptor — working directory and both command templates are
always overwritten; `executionTimeout` only when the current value is falsy. -/
def optionsParser (tc : ToolchainInfo) (cfg : ICompilerConfigs) : ICompilerConfigs :=
  { cfg with
    filePath := tc.filePath
    executionTimeout :=
      if truthyNat cfg.executionTimeout then cfg.executionTimeout else tc.executionTimeout
    compileCommand := tc.compileCommand
    runCommand := tc.runCommand }

/-- `public execute()`: apply the defaults, resolve the toolchain (an
external asynchronous lookup, its outcome passed in as `toolchain`;
resolution failure is forwarded to the observer), merge via `optionsParser`,
then `compileAndRun`. -/
def execute (cfg : ICompilerConfigs) (toolchain : Except JsError ToolchainInfo)
    (oracle : ProcOracle) : Signal ICompilerOutput × List ProcInvocation :=
  let cfg1 := configureDefaultOptions cfg
  match toolchain with
  | Except.error e => (Signal.error e, [])
  | Except.ok tc => compileAndRun (optionsParser tc cfg1) oracle []

end Compiler

/-! ## Helper lemmas: the variables map -/

theorem mapGet_mapSet_self (m : VarMap) (k v : String) :
    mapGet (mapSet m k v) k = some v := by
  induction m with
  | nil => simp [mapSet, mapGet]
  | cons p rest ih =>
    obtain ⟨k1, v1⟩ := p
    by_cases h : k1 = k
    · simp [mapSet, mapGet, h]
    · simp [mapSet, mapGet, h, ih]

theorem mapGet_mapSet_ne (m : VarMap) (k v k2 : String) (h : k2 ≠ k) :
    mapGet (mapSet m k v) k2 = mapGet m k2 := by
  have hne : ¬k = k2 := fun hk => h hk.symm
  induction m with
  | nil => simp [mapSet, mapGet, hne]
  | cons p rest ih =>
    obtain ⟨k1, v1⟩ := p
    by_cases hk : k1 = k
    · subst hk
      simp [mapSet, mapGet, hne]
    · simp [mapSet, mapGet, hk, ih]

theorem mem_mapSet (m : VarMap) (k v : String) (q : String × String)
    (hq : q ∈ mapSet m k v) : q = (k, v) ∨ q ∈ m := by
  induction m with
  | nil =>
    simp [mapSet] at hq
    exact Or.inl hq
  | cons p rest ih =>
    obtain ⟨k1, v1⟩ := p
    by_cases hk : k1 = k
    · subst hk
      simp [mapSet] at hq
      rcases hq with hq | hq
      · exact Or.inl hq
      · exact Or.inr (List.mem_cons_of_mem _ hq)
    · simp [mapSet, hk] at hq
      rcases hq with hq | hq
      · exact Or.inr (by simp [hq])
      · rcases ih hq with h1 | h1
        · exact Or.inl h1
        · exact Or.inr (List.mem_cons_of_mem _ h1)

theorem pairwise_mapSet (m : VarMap) (k v : String)
    (h : List.Pairwise (fun p q => p.1 ≠ q.1) m) :
    List.Pairwise (fun p q => p.1 ≠ q.1) (mapSet m k v) := by
  induction m with
  | nil => simp [mapSet]
  | cons p rest ih =>
    obtain ⟨k1, v1⟩ := p
    rw [List.pairwise_cons] at h
    by_cases hk : k1 = k
    · subst hk
      rw [mapSet, if_pos rfl, List.pairwise_cons]
      exact ⟨h.1, h.2⟩
    · rw [mapSet, if_neg hk, List.pairwise_cons]
      refine ⟨fun q hq => ?_, ih h.2⟩
      rcases mem_mapSet rest k v q hq with h1 | h1
      · subst h1
        exact hk
      · exact h.1 q h1

/-- Number of bindings a map holds under key `k`. -/
def countKey (m : VarMap) (k : String) : Nat :=
  m.countP (fun p => decide (p.1 = k))

theorem countKey_eq_zero (m : VarMap) (k : String) (h : ∀ p ∈ m, p.1 ≠ k) :
    countKey m k = 0 := by
  unfold countKey
  rw [List.countP_eq_zero]
  intro p hp
  simpa using h p hp

theorem countKey_mapSet (m : VarMap) (k v : String)
    (h : List.Pairwise (fun p q => p.1 ≠ q.1) m) :
    countKey (mapSet m k v) k = 1 := by
  induction m with
  | nil => simp [mapSet, countKey, List.countP_cons]
  | cons p rest ih =>
    obtain ⟨k1, v1⟩ := p
    rw [List.pairwise_cons] at h
    by_cases hk : k1 = k
    · subst hk
      rw [mapSet, if_pos rfl]
      unfold countKey
      rw [List.countP_cons]
      have hz : countKey rest k1 = 0 :=
        countKey_eq_zero rest k1 (fun q hq => (h.1 q hq).symm)
      unfold countKey at hz
      simp [hz]
    · rw [mapSet, if_neg hk]
      unfold countKey
      rw [List.countP_cons]
      have := ih h.2
      unfold countKey at this
      simp [this, hk]

/-! ## Helper lemmas: trimming -/

theorem dropWhile_trimChars (l : List Char) :
    List.dropWhile jsWhitespace (trimChars l) = trimChars l := by
  unfold trimChars
  set a := List.dropWhile jsWhitespace l with ha
  rw [List.dropWhile_eq_self_iff]
  intro hl
  have hpre : List.rdropWhile jsWhitespace a <+: a := List.rdropWhile_prefix _ _
  have hlen : 0 < a.length := lt_of_lt_of_le hl hpre.length_le
  have hget : (List.rdropWhile jsWhitespace a).get ⟨0, hl⟩ = a.get ⟨0, hlen⟩ := by
    simpa using hpre.getElem hl
  rw [hget]
  exact List.dropWhile_get_zero_not _ _ _

theorem trimChars_idem (l : List Char) : trimChars (trimChars l) = trimChars l := by
  have h1 : trimChars (trimChars l) =
      List.rdropWhile jsWhitespace (List.dropWhile jsWhitespace (trimChars l)) := rfl
  rw [h1, dropWhile_trimChars]
  show List.rdropWhile jsWhitespace
      (List.rdropWhile jsWhitespace (List.dropWhile jsWhitespace l)) = _
  exact List.rdropWhile_idempotent _ _

theorem jsTrim_idem (s : String) : jsTrim (jsTrim s) = jsTrim s := by
  show (⟨trimChars (trimChars s.data)⟩ : String) = ⟨trimChars s.data⟩
  rw [trimChars_idem]

theorem length_pos_of_ne_empty (s : String) (h : s ≠ "") : 0 < s.length := by
  obtain ⟨data⟩ := s
  cases data with
  | nil => exact absurd (by decide) h
  | cons c cs => simp [String.length]

theorem eq_empty_of_length_zero (s : String) (h : ¬0 < s.length) : s = "" := by
  obtain ⟨data⟩ := s
  cases data with
  | nil => decide
  | cons c cs => simp [String.length] at h

/-- The invariant of the descriptor's variables map: keys are unique, and
every key is a non-empty fixed point of trimming. -/
def ValidVarMap (m : VarMap) : Prop :=
  (∀ p ∈ m, p.1 ≠ "" ∧ jsTrim p.1 = p.1) ∧ List.Pairwise (fun p q => p.1 ≠ q.1) m

/-! ## Claims C9 and C10: putVariable -/

/-- C9: `putVariable` is a no-op whenever the trimmed name is empty, and
otherwise stores the trimmed name mapped to the stringified value, leaving
every other key's binding unchanged. -/
theorem putVariable_trim_semantics (cfg : ICompilerConfigs) (name : String)
    (value : JsValue) :
    (jsTrim name = "" → Compiler.putVariable cfg name value = cfg) ∧
    (jsTrim name ≠ "" →
      mapGet (Compiler.putVariable cfg name value).«variables» (jsTrim name) =
          some (jsToString value) ∧
      ∀ k, k ≠ jsTrim name →
        mapGet (Compiler.putVariable cfg name value).«variables» k =
          mapGet cfg.«variables» k) := by
  constructor
  · intro h
    unfold Compiler.putVariable
    rw [if_neg]
    rw [h]
    decide
  · intro h
    have hlen : 0 < (jsTrim name).length := length_pos_of_ne_empty _ h
    unfold Compiler.putVariable
    rw [if_pos hlen]
    exact ⟨mapGet_mapSet_self _ _ _, fun k hk => mapGet_mapSet_ne _ _ _ _ hk⟩

/-- Witness for C9 at the spec's own examples: `putVariable("  ", "x")` is a
no-op and `putVariable(" n ", 5)` stores `"n" → "5"`. -/
theorem putVariable_trim_semantics_witness :
    Compiler.putVariable { compilerName := "c" } "  " (JsValue.str "x") =
        { compilerName := "c" } ∧
    mapGet (Compiler.putVariable { compilerName := "c" } " n "
        (JsValue.num 5)).«variables» "n" = some "5" :=
  ⟨(putVariable_trim_semantics { compilerName := "c" } "  " (JsValue.str "x")).1 (by decide),
   ((putVariable_trim_semantics { compilerName := "c" } " n " (JsValue.num 5)).2
      (by decide)).1⟩

/-- C10: two `putVariable` calls whose names trim to the same non-empty key
leave exactly one binding under that key, holding the later call's
stringified value, and the variables-map invariant (unique keys, all keys
trimmed and non-empty) is preserved. -/
theorem putVariable_last_write_wins (cfg : ICompilerConfigs) (a b : String)
    (v1 v2 : JsValue) (hm : ValidVarMap cfg.«variables»)
    (hab : jsTrim a = jsTrim b) (hb : jsTrim b ≠ "") :
    countKey (Compiler.putVariable (Compiler.putVariable cfg a v1) b v2).«variables»
        (jsTrim b) = 1 ∧
    mapGet (Compiler.putVariable (Compiler.putVariable cfg a v1) b v2).«variables»
        (jsTrim b) = some (jsToString v2) ∧
    ValidVarMap
      (Compiler.putVariable (Compiler.putVariable cfg a v1) b v2).«variables» := by
  have ha : jsTrim a ≠ "" := by rw [hab]; exact hb
  have hla : 0 < (jsTrim a).length := length_pos_of_ne_empty _ ha
  have hlb : 0 < (jsTrim b).length := length_pos_of_ne_empty _ hb
  have hv :
      (Compiler.putVariable (Compiler.putVariable cfg a v1) b v2).«variables» =
        mapSet (mapSet cfg.«variables» (jsTrim b) (jsToString v1)) (jsTrim b)
          (jsToString v2) := by
    unfold Compiler.putVariable
    rw [if_pos hla, if_pos hlb, hab]
  rw [hv]
  have hpair1 : List.Pairwise (fun p q => p.1 ≠ q.1)
      (mapSet cfg.«variables» (jsTrim b) (jsToString v1)) :=
    pairwise_mapSet _ _ _ hm.2
  refine ⟨countKey_mapSet _ _ _ hpair1, mapGet_mapSet_self _ _ _, ?_, ?_⟩
  · intro p hp
    rcases mem_mapSet _ _ _ _ hp with h1 | h1
    · subst h1
      exact ⟨hb, jsTrim_idem b⟩
    · rcases mem_mapSet _ _ _ _ h1 with h2 | h2
      · subst h2
        exact ⟨hb, jsTrim_idem b⟩
      · exact hm.1 p h2
  · exact pairwise_mapSet _ _ _ hpair1

/-- Witness for C10: starting from an empty map, `putVariable(" n ", 5)` then
`putVariable("n ", "7")` leave exactly one binding `"n" → "7"`. -/
theorem putVariable_last_write_wins_witness :
    countKey (Compiler.putVariable (Compiler.putVariable { compilerName := "c" } " n "
        (JsValue.num 5)) "n " (JsValue.str "7")).«variables» "n" = 1 ∧
    mapGet (Compiler.putVariable (Compiler.putVariable { compilerName := "c" } " n "
        (JsValue.num 5)) "n " (JsValue.str "7")).«variables» "n" = some "7" :=
  ⟨(putVariable_last_write_wins { compilerName := "c" } " n " "n "
      (JsValue.num 5) (JsValue.str "7") (by constructor <;> simp) (by decide) (by decide)).1,
   (putVariable_last_write_wins { compilerName := "c" } " n " "n "
      (JsValue.num 5) (JsValue.str "7") (by constructor <;> simp) (by decide) (by decide)).2.1⟩

/-! ## Claim C1: what the compile phase actually spawns -/

def cfg1 : ICompilerConfigs :=
  { compilerName := "c", compileCommand := some "cc main.c -o out",
    runCommand := some "./out", filePath := some "./", executionTimeout := some 2000 }

def oracle1 : ProcOracle := fun _ => ProcResult.finished ["ok"] 0 0 500000

/-- C1 (code bug): with `compileCommand` set, the compile phase does not
invoke the process runner with the command built from the `compileCommand`
template and no stdin; `compile()` passes `this.configs.compileCommand` to
`run(...inputs)`, so the spawned command is built from the `runCommand`
template and the raw compile command is written as a stdin line. The second
conjunct records what the CommandTemplate Engine would have produced from
the compile template. -/
theorem compile_spawns_run_command_with_compile_template_as_stdin :
    (Compiler.compile cfg1 oracle1 []).2 =
      [{ command := "./out", currentDirectory := some "./",
         executionTimeout := some 2000, stdin := ["cc main.c -o out"] }] ∧
    Compiler.configureCommand cfg1 "cc main.c -o out" = "cc main.c -o out" :=
  ⟨rfl, rfl⟩

/-! ## Claim C2: process-runner failures are not propagated -/

def cfg2 : ICompilerConfigs := { compilerName := "node" }

def tc2run : ToolchainInfo :=
  { filePath := some "./", executionTimeout := some 3000, runCommand := some "./a.out" }

def tc2compile : ToolchainInfo :=
  { filePath := some "./", executionTimeout := some 3000,
    compileCommand := some "cc x.c", runCommand := some "./a.out" }

def oracleFail : ProcOracle := fun _ => ProcResult.failed JsError.timeout

/-- C2 (code bug): a process-runner failure (here a timeout) in the run
phase — and likewise in the compile phase — is not propagated to the caller:
`execute()` delivers no terminal signal at all, because the subscriptions to
the process streams and to `compile()` install no error callbacks. The
caller receives neither the claimed single error signal nor a value. -/
theorem runner_failure_not_propagated :
    Compiler.execute cfg2 (Except.ok tc2run) oracleFail =
      (Signal.dropped,
       [{ command := "./a.out", currentDirectory := some "./",
          executionTimeout := some 3000, stdin := [] }]) ∧
    Compiler.execute cfg2 (Except.ok tc2compile) oracleFail =
      (Signal.dropped,
       [{ command := "./a.out", currentDirectory := some "./",
          executionTimeout := some 3000, stdin := ["cc x.c"] }]) :=
  ⟨rfl, rfl⟩

/-! ## Claim C3: the empty-command error still spawns -/

def cfg3 : ICompilerConfigs :=
  { compilerName := "c", filePath := some "./", executionTimeout := some 1000 }

def oracle3 : ProcOracle := fun _ => ProcResult.finished ["boom"] 0 0 1000

/-- C3 (code bug): invoking the process-running step with `runCommand` unset
(so the command string stays empty) does signal
`CompilationError('runCommand not found.')` immediately, but a
`ProcessWrapper` is nevertheless constructed with the empty command — a
subprocess is spawned, since the source has no early return after
`observer.error`. -/
theorem empty_command_still_spawns :
    Compiler.run cfg3 oracle3 [] [] =
      (Signal.error (JsError.compilationError "runCommand not found."),
       [{ command := "", currentDirectory := some "./",
          executionTimeout := some 1000, stdin := [] }]) :=
  rfl

/-! ## Claim C4: elapsed time drops whole seconds -/

def cfg4 : ICompilerConfigs :=
  { compilerName := "c", runCommand := some "./a.out", filePath := some "./",
    executionTimeout := some 5000 }

def oracle4 : ProcOracle := fun _ => ProcResult.finished ["out"] 0 2 500000000

/-- C4 (code bug): for a subprocess that terminates after 2 s and
500000000 ns — 2500 ms of wall-clock time — the reported `took` is
`hrtime_diff[1] / 1000000 = 500` ms: the whole seconds of the elapsed time
(`hrtime_diff[0]`) are dropped. -/
theorem took_drops_whole_seconds :
    (Compiler.run cfg4 oracle4 [] []).1 =
      Signal.next { data := some "out", returnCode := some 0,
                    took := some (((500000000 : ℕ) : ℚ) / 1000000) } ∧
    (((500000000 : ℕ) : ℚ) / 1000000) = 500 ∧
    ((2 : ℚ) * 1000 + ((500000000 : ℕ) : ℚ) / 1000000) = 2500 ∧
    ((500 : ℚ)) ≠ 2500 :=
  ⟨rfl, by norm_num, by norm_num, by norm_num⟩

/-! ## Claim C5: toolchain merge -/

def cfg5 : ICompilerConfigs := Compiler.executionTimeout { compilerName := "c" } 0

def tc5 : ToolchainInfo :=
  { filePath := some "./", executionTimeout := some 3000, runCommand := some "./a.out" }

/-- C5 counterexample: a user-set timeout of `0` is not kept — JS truthiness
makes `optionsParser` treat `0` as unset and the toolchain default `3000`
overwrites it. -/
theorem user_timeout_zero_overwritten :
    cfg5.executionTimeout = some 0 ∧
    (Compiler.optionsParser tc5 cfg5).executionTimeout = some 3000 ∧
    (Compiler.optionsParser tc5 cfg5).executionTimeout ≠ cfg5.executionTimeout :=
  ⟨rfl, rfl, by decide⟩

/-- C5 (amended): `optionsParser` always overwrites the working directory
and the compile/run command templates with the toolchain values; it keeps a
user-set `executionTimeout` only when that value is non-zero, and overwrites
it with the toolchain default when the user value is unset or `0`. -/
theorem optionsParser_merge (tc : ToolchainInfo) (cfg : ICompilerConfigs) :
    (Compiler.optionsParser tc cfg).filePath = tc.filePath ∧
    (Compiler.optionsParser tc cfg).compileCommand = tc.compileCommand ∧
    (Compiler.optionsParser tc cfg).runCommand = tc.runCommand ∧
    (∀ n : Nat, cfg.executionTimeout = some n → n ≠ 0 →
      (Compiler.optionsParser tc cfg).executionTimeout = some n) ∧
    (cfg.executionTimeout = none ∨ cfg.executionTimeout = some 0 →
      (Compiler.optionsParser tc cfg).executionTimeout = tc.executionTimeout) := by
  refine ⟨rfl, rfl, rfl, ?_, ?_⟩
  · intro n hn hnz
    unfold Compiler.optionsParser
    simp [truthyNat, hn, hnz]
  · intro h
    unfold Compiler.optionsParser
    rcases h with h | h <;> simp [truthyNat, h]

/-- Witness for C5's amended merge: a non-zero user timeout of `500` is
kept, while the user timeout `0` of `cfg5` is replaced by the toolchain
default. -/
theorem optionsParser_merge_witness :
    (Compiler.optionsParser tc5
        (Compiler.executionTimeout { compilerName := "c" } 500)).executionTimeout =
      some 500 ∧
    (Compiler.optionsParser tc5 cfg5).executionTimeout = tc5.executionTimeout :=
  ⟨(optionsParser_merge tc5
      (Compiler.executionTimeout { compilerName := "c" } 500)).2.2.2.1 500 rfl
      (by decide),
   (optionsParser_merge tc5 cfg5).2.2.2.2 (Or.inr rfl)⟩

/-! ## Claim C6: compile-failure passthrough -/

/-- C6: when the compile phase completes with a non-zero return code and the
resolved `runCommand` is set, `execute()` emits the compile phase's output
verbatim as the terminal outcome and performs no further process invocation
(the invocation trace stays exactly the compile phase's). -/
theorem execute_compile_failure_passthrough (cfg : ICompilerConfigs)
    (tc : ToolchainInfo) (oracle : ProcOracle) (out : ICompilerOutput)
    (st1 : List ProcInvocation) (rc : Int)
    (hc : Compiler.compile
        (Compiler.optionsParser tc (Compiler.configureDefaultOptions cfg)) oracle [] =
      (Signal.next out, st1))
    (hrc : out.returnCode = some rc) (hnz : rc ≠ 0)
    (hrun : truthyStr tc.runCommand = true) :
    Compiler.execute cfg (Except.ok tc) oracle = (Signal.next out, st1) := by
  have hrc0 : out.returnCode ≠ some 0 := by
    rw [hrc]
    intro hcontr
    exact hnz (by injection hcontr)
  have h1 : ¬(out.returnCode = some Compiler.SUCCESS_CODE ∧
      truthyStr (Compiler.optionsParser tc
        (Compiler.configureDefaultOptions cfg)).runCommand = true) := by
    intro hand
    exact hrc0 (by simpa [Compiler.SUCCESS_CODE] using hand.1)
  have h2 : ¬(truthyStr (Compiler.optionsParser tc
      (Compiler.configureDefaultOptions cfg)).runCommand = false) := by
    have hsame : (Compiler.optionsParser tc
        (Compiler.configureDefaultOptions cfg)).runCommand = tc.runCommand := rfl
    rw [hsame, hrun]
    simp
  show Compiler.compileAndRun
      (Compiler.optionsParser tc (Compiler.configureDefaultOptions cfg)) oracle [] =
    (Signal.next out, st1)
  simp only [Compiler.compileAndRun, hc]
  rw [if_neg h1, if_neg h2, if_pos hrc0]

def cfg6 : ICompilerConfigs := { compilerName := "c" }

def tc6 : ToolchainInfo :=
  { filePath := some "./", executionTimeout := some 3000,
    compileCommand := some "cc x.c", runCommand := some "./a.out" }

def oracle6 : ProcOracle := fun _ => ProcResult.finished ["syntax error"] 1 0 7000000

/-- Witness for C6: the spec's scenario — the compile phase exits `1` with
output `"syntax error"`; `execute()` yields that result verbatim and only
the compile-phase process was ever spawned. -/
theorem execute_compile_failure_passthrough_witness :
    Compiler.execute cfg6 (Except.ok tc6) oracle6 =
      (Signal.next { returnCode := some 1, data := some "syntax error",
                     took := some (((7000000 : ℕ) : ℚ) / 1000000) },
       [{ command := "./a.out", currentDirectory := some "./",
          executionTimeout := some 3000, stdin := ["cc x.c"] }]) :=
  execute_compile_failure_passthrough cfg6 tc6 oracle6 _ _ 1 rfl rfl (by decide) rfl

/-! ## Claim C7: missing run command with a compile phase present -/

def tc7 : ToolchainInfo :=
  { filePath := some "./", executionTimeout := some 3000,
    compileCommand := some "cc x.c" }

def tc7none : ToolchainInfo :=
  { filePath := some "./", executionTimeout := some 3000 }

def oracle7 : ProcOracle := fun _ => ProcResult.finished ["boom"] 0 0 1000

/-- C7 (code bug): when `runCommand` is unset after resolution and
`compileCommand` is set, `execute()` does not terminate with the
missing-run-command failure: the error raised inside the compile phase is
dropped by the `compile()` subscription, which has no error callback, so the
caller receives no terminal signal at all. Only when `compileCommand` is
also unset (second conjunct) does the caller receive
`CompilationError('runCommand not found.')`. -/
theorem missing_run_command_error_dropped :
    Compiler.execute { compilerName := "c" } (Except.ok tc7) oracle7 =
      (Signal.dropped,
       [{ command := "", currentDirectory := some "./",
          executionTimeout := some 3000, stdin := ["cc x.c"] }]) ∧
    Compiler.execute { compilerName := "c" } (Except.ok tc7none) oracle7 =
      (Signal.error (JsError.compilationError "runCommand not found."), []) :=
  ⟨rfl, rfl⟩

/-! ## Claim C8: dispatch exhaustiveness and the unreachable guard -/

theorem run_never_guard_error (cfg : ICompilerConfigs) (oracle : ProcOracle)
    (st : List ProcInvocation) (inputs : List String) :
    (Compiler.run cfg oracle st inputs).1 ≠
      Signal.error (JsError.compilationError "Failed to compile.") := by
  unfold Compiler.run
  cases ht : truthyStr cfg.runCommand
  · simp [ht]
  · simp only [ht, if_true]
    cases oracle st.length <;> simp

/-- C8: for every compile-phase outcome exactly one of the three dispatch
conditions holds — success code with `runCommand` set, `runCommand` unset,
non-success code with `runCommand` set — they are pairwise exclusive, each
branch produces exactly its described outcome (run phase, missing-run-command
error, compile-result passthrough), and the guard branch emitting
`CompilationError("Failed to compile.")` is unreachable. -/
theorem compileAndRun_dispatch (cfg : ICompilerConfigs) (oracle : ProcOracle)
    (st : List ProcInvocation) :
    (Compiler.compileAndRun cfg oracle st).1 ≠
        Signal.error (JsError.compilationError "Failed to compile.") ∧
    (∀ out : ICompilerOutput,
      ((out.returnCode = some Compiler.SUCCESS_CODE ∧ truthyStr cfg.runCommand = true) ∨
        truthyStr cfg.runCommand = false ∨
        (out.returnCode ≠ some Compiler.SUCCESS_CODE ∧ truthyStr cfg.runCommand = true)) ∧
      ¬((out.returnCode = some Compiler.SUCCESS_CODE ∧ truthyStr cfg.runCommand = true) ∧
          truthyStr cfg.runCommand = false) ∧
      ¬((out.returnCode = some Compiler.SUCCESS_CODE ∧ truthyStr cfg.runCommand = true) ∧
          (out.returnCode ≠ some Compiler.SUCCESS_CODE ∧ truthyStr cfg.runCommand = true)) ∧
      ¬(truthyStr cfg.runCommand = false ∧
          (out.returnCode ≠ some Compiler.SUCCESS_CODE ∧ truthyStr cfg.runCommand = true))) ∧
    (∀ out st1, Compiler.compile cfg oracle st = (Signal.next out, st1) →
      ((out.returnCode = some Compiler.SUCCESS_CODE ∧ truthyStr cfg.runCommand = true) →
        Compiler.compileAndRun cfg oracle st = Compiler.run cfg oracle st1 cfg.inputs) ∧
      (truthyStr cfg.runCommand = false →
        Compiler.compileAndRun cfg oracle st =
          (Signal.error (JsError.compilationError "runCommand not found."), st1)) ∧
      ((out.returnCode ≠ some Compiler.SUCCESS_CODE ∧ truthyStr cfg.runCommand = true) →
        Compiler.compileAndRun cfg oracle st = (Signal.next out, st1))) := by
  refine ⟨?_, ?_, ?_⟩
  · cases hc : Compiler.compile cfg oracle st with
    | mk sig st1 =>
      cases sig with
      | next out =>
        simp only [Compiler.compileAndRun, hc]
        split_ifs with hA hB hC
        · exact run_never_guard_error cfg oracle st1 cfg.inputs
        · simp
        · simp
        · exfalso
          have hS : Compiler.SUCCESS_CODE = (0 : Int) := rfl
          rw [hS] at hA
          cases htb : truthyStr cfg.runCommand
          · exact hB htb
          · exact hA ⟨not_not.mp hC, htb⟩
      | error e =>
        simp only [Compiler.compileAndRun, hc]
        simp
      | dropped =>
        simp only [Compiler.compileAndRun, hc]
        simp
  · intro out
    by_cases hr : out.returnCode = some Compiler.SUCCESS_CODE <;>
      cases htb : truthyStr cfg.runCommand <;>
      simp [hr, htb]
  · intro out st1 hc
    refine ⟨?_, ?_, ?_⟩
    · intro hA
      simp only [Compiler.compileAndRun, hc]
      rw [if_pos hA]
    · intro hB
      have hA : ¬(out.returnCode = some Compiler.SUCCESS_CODE ∧
          truthyStr cfg.runCommand = true) := by
        intro hand
        rw [hand.2] at hB
        exact absurd hB (by decide)
      simp only [Compiler.compileAndRun, hc]
      rw [if_neg hA, if_pos hB]
    · intro hC
      have hA : ¬(out.returnCode = some Compiler.SUCCESS_CODE ∧
          truthyStr cfg.runCommand = true) := fun hand => hC.1 hand.1
      have hB : ¬(truthyStr cfg.runCommand = false) := by
        rw [hC.2]
        decide
      have hC0 : out.returnCode ≠ some 0 := by
        simpa [Compiler.SUCCESS_CODE] using hC.1
      simp only [Compiler.compileAndRun, hc]
      rw [if_neg hA, if_neg hB, if_pos hC0]

def cfg8 : ICompilerConfigs :=
  { compilerName := "c", runCommand := some "./a.out", filePath := some "./",
    executionTimeout := some 1000, inputs := ["5", "6"] }

def oracle8 : ProcOracle := fun _ => ProcResult.finished ["hi"] 0 0 2000000

/-- Witness for C8: with no compile command the synthesized success outcome
takes the first branch, so `compileAndRun` is exactly the run phase on the
pending inputs. -/
theorem compileAndRun_dispatch_witness :
    Compiler.compileAndRun cfg8 oracle8 [] = Compiler.run cfg8 oracle8 [] cfg8.inputs :=
  ((compileAndRun_dispatch cfg8 oracle8 []).2.2 { returnCode := some 0 } [] rfl).1
    ⟨rfl, rfl⟩

end CompilerMediator
